import Mathlib

/-!
Shallow embedding of `redux-crud-thunk` (src/src/index.ts).

The library wires five CRUD async thunks (create / update / delete / list /
get) to a per-entity state fragment `EntityState<T>`.  We model:

* `EntityState` — the state shape (src/src/index.ts lines 127-132);
* `operationFulfilled` — the five fulfilled merge policies (lines 73-94),
  with JavaScript `Array.prototype.splice(start)` (single argument) and
  `findIndex` modelled faithfully (`jsSpliceFrom`, `jsFindIndex`);
* the three lifecycle case handlers registered by `registerCrudReducers`
  (lines 105-123): `crudPending`, `crudFulfilled`, `crudRejected`;
* `createCrudThunk` (lines 16-25): the thunk body catches a service
  rejection and converts it to `rejectWithValue`, never re-throwing; the
  promise outcome is modelled by `Except` and the settlement by
  `ThunkSettlement`.
-/

namespace ReduxCrudThunk

/-- The per-resource state fragment `EntityState<T>`
(src/src/index.ts lines 127-132).  `selectedEntity?: T` is optional,
modelled by `Option T`. -/
structure EntityState (T : Type) where
  isLoading : Bool
  error : String
  entityList : List T
  selectedEntity : Option T
deriving Repr, DecidableEq

/-- JavaScript `Array.prototype.findIndex(pred)`: index of the first
element satisfying `pred`, or `-1` when none does. -/
def jsFindIndex {T : Type} (pred : T → Bool) (l : List T) : Int :=
  match l.findIdx? pred with
  | some i => (i : Int)
  | none => -1

/-- JavaScript `Array.prototype.splice(start)` with a single argument:
every element from the (clamped) start index to the end of the array is
removed, so the array that remains is `l.take actualStart`, where a
negative `start` counts back from the end (clamped at 0) and a `start`
beyond the length removes nothing. -/
def jsSpliceFrom {T : Type} (l : List T) (start : Int) : List T :=
  if start < 0 then l.take (start + (l.length : Int)).toNat
  else l.take start.toNat

/-- The payload carried by a fulfilled CRUD action: one entity for
create / update / delete / get, a sequence of entities for list.  The five
constructors correspond to the five keys of `operationFulfilled`
(src/src/index.ts line 73). -/
inductive CrudPayload (T : Type) where
  | create (entity : T)
  | update (entity : T)
  | delete (entity : T)
  | list (entities : List T)
  | get (entity : T)
deriving Repr, DecidableEq

/-- The five fulfilled merge policies (`operationFulfilled`,
src/src/index.ts lines 73-94).  `ident` plays the role of the `id : string`
field required by the `T extends { id: string }` bound on update/delete:

* create: `state.entityList.push(payload)` — append at the end;
* update: map replacing every element whose id equals the payload's id,
  then `splice(0, length)` + `push(...updatedArray)` — i.e. the list
  becomes the mapped array;
* list: `splice(0, length)` + `push(...payload)` — wholesale replacement;
* delete: `splice(findIndex(...))` — single-argument splice at the found
  index (`-1` when no element matches);
* get: `state.selectedEntity = payload`. -/
def operationFulfilled {T : Type} (ident : T → String) :
    CrudPayload T → EntityState T → EntityState T
  | .create payload, state =>
      { state with entityList := state.entityList ++ [payload] }
  | .update payload, state =>
      let updatedArray := state.entityList.map (fun entity =>
        if ident entity == ident payload then payload else entity)
      { state with entityList := updatedArray }
  | .list payload, state =>
      { state with entityList := payload }
  | .delete payload, state =>
      let start := jsFindIndex
        (fun entity => ident entity == ident payload) state.entityList
      { state with entityList := jsSpliceFrom state.entityList start }
  | .get payload, state =>
      { state with selectedEntity := some payload }

/-- The pending case handler registered by `registerCrudReducers`
(src/src/index.ts lines 105-109): `isLoading = true`, `error = ""`. -/
def crudPending {T : Type} (state : EntityState T) : EntityState T :=
  { state with isLoading := true, error := "" }

/-- The fulfilled case handler registered by `registerCrudReducers`
(src/src/index.ts lines 110-118): `isLoading = false`, `error = ""`,
then the operation's merge policy is applied to the payload. -/
def crudFulfilled {T : Type} (ident : T → String) (payload : CrudPayload T)
    (state : EntityState T) : EntityState T :=
  operationFulfilled ident payload
    { state with isLoading := false, error := "" }

/-- The rejected case handler registered by `registerCrudReducers`
(src/src/index.ts lines 119-123): `error = action.payload`,
`isLoading = false`. -/
def crudRejected {T : Type} (payload : String) (state : EntityState T) :
    EntityState T :=
  { state with error := payload, isLoading := false }

/-- How a thunk invocation settles: fulfilled with the resolved value,
rejected via `rejectWithValue`, or an uncaught throw escaping the thunk
body (which the source's try/catch prevents). -/
inductive ThunkSettlement (T E : Type) where
  | fulfilled (value : T)
  | rejectedWithValue (value : E)
  | thrown (value : E)
deriving Repr, DecidableEq

/-- The payload creator built by `createCrudThunk`
(src/src/index.ts lines 16-25): `try { return await serviceFunction(p) }
catch (error) { return rejectWithValue(error) }`.  The service promise's
outcome is an `Except E T`; a resolution settles fulfilled, a rejection is
caught and settles `rejectWithValue`. -/
def createCrudThunk {P E T : Type} (serviceFunction : P → Except E T)
    (actionPayload : P) : ThunkSettlement T E :=
  match serviceFunction actionPayload with
  | .ok value => .fulfilled value
  | .error error => .rejectedWithValue error

/-! ### Helper lemmas -/

/-- The update replacement function is idempotent pointwise: replacing an
already-replaced element changes nothing. -/
theorem update_fn_idem {T : Type} (ident : T → String) (p : T) (e : T) :
    (fun x => if ident x == ident p then p else x)
      ((fun x => if ident x == ident p then p else x) e)
    = (fun x => if ident x == ident p then p else x) e := by
  by_cases h : ident e == ident p
  · simp [h]
  · simp [h]

/-- When no element of the list matches the payload's identifier, the
update replacement map is the identity. -/
theorem map_update_no_match {T : Type} (ident : T → String) (p : T) :
    ∀ (l : List T), (∀ e ∈ l, ident e ≠ ident p) →
      l.map (fun e => if ident e == ident p then p else e) = l := by
  intro l h
  induction l with
  | nil => rfl
  | cons a t ih =>
    have ha : (ident a == ident p) = false :=
      beq_eq_false_iff_ne.mpr (h a (List.mem_cons_self a t))
    rw [List.map_cons, if_neg (by simp [ha]),
      ih (fun e he => h e (List.mem_cons_of_mem a he))]

/-! ### Claims -/

/-- C4: the create-fulfilled transition appends the payload at the end of
`entityList` (prior elements unchanged in order, new length = old length
+ 1), sets `isLoading` to `false` and `error` to `""`; a repeated
identical create appends a second copy with no deduplication. -/
theorem create_fulfilled_appends :
    ∀ (T : Type) (ident : T → String) (p : T) (s : EntityState T),
      (crudFulfilled ident (.create p) s).entityList = s.entityList ++ [p]
    ∧ (crudFulfilled ident (.create p) s).entityList.length
        = s.entityList.length + 1
    ∧ (crudFulfilled ident (.create p) s).isLoading = false
    ∧ (crudFulfilled ident (.create p) s).error = ""
    ∧ (crudFulfilled ident (.create p)
          (crudFulfilled ident (.create p) s)).entityList
        = s.entityList ++ [p] ++ [p] := by
  intro T ident p s
  refine ⟨rfl, ?_, rfl, rfl, rfl⟩
  simp [crudFulfilled, operationFulfilled]

/-- C5: the list-fulfilled reducer replaces `entityList` wholesale with
the returned sequence in its order, regardless of prior contents, and
leaves `selectedEntity` unaffected. -/
theorem list_fulfilled_replaces_wholesale :
    ∀ (T : Type) (ident : T → String) (es : List T) (s : EntityState T),
      (crudFulfilled ident (.list es) s).entityList = es
    ∧ (crudFulfilled ident (.list es) s).selectedEntity
        = s.selectedEntity := by
  intro T ident es s
  exact ⟨rfl, rfl⟩

/-- C6: the get-fulfilled reducer sets `selectedEntity` to the resolved
entity and leaves `entityList` unchanged. -/
theorem get_fulfilled_sets_selected :
    ∀ (T : Type) (ident : T → String) (p : T) (s : EntityState T),
      (crudFulfilled ident (.get p) s).selectedEntity = some p
    ∧ (crudFulfilled ident (.get p) s).entityList = s.entityList := by
  intro T ident p s
  exact ⟨rfl, rfl⟩

/-- C7: for every operation, the pending handler sets `isLoading = true`
and `error = ""` leaving the list and selection untouched; the rejected
handler sets `isLoading = false` and `error` to the carried value leaving
the list and selection untouched; the fulfilled handler sets
`isLoading = false` and `error = ""` before applying the operation's
merge policy, and those two fields still hold those values afterwards. -/
theorem lifecycle_reducers_loading_error :
    ∀ (T : Type) (ident : T → String) (payload : CrudPayload T)
      (err : String) (s : EntityState T),
      (crudPending s).isLoading = true
    ∧ (crudPending s).error = ""
    ∧ (crudPending s).entityList = s.entityList
    ∧ (crudPending s).selectedEntity = s.selectedEntity
    ∧ (crudRejected err s).isLoading = false
    ∧ (crudRejected err s).error = err
    ∧ (crudRejected err s).entityList = s.entityList
    ∧ (crudRejected err s).selectedEntity = s.selectedEntity
    ∧ crudFulfilled ident payload s
        = operationFulfilled ident payload
            { s with isLoading := false, error := "" }
    ∧ (crudFulfilled ident payload s).isLoading = false
    ∧ (crudFulfilled ident payload s).error = "" := by
  intro T ident payload err s
  refine ⟨rfl, rfl, rfl, rfl, rfl, rfl, rfl, rfl, rfl, ?_, ?_⟩ <;>
    cases payload <;> simp [crudFulfilled, operationFulfilled]

/-- C3: the update-fulfilled reducer replaces, in place, every list
element whose identifier equals the payload's identifier with the
payload, preserving each element's original position and the list
length; when no element's identifier matches, `entityList` is left
unchanged. -/
theorem update_fulfilled_replaces_in_place :
    ∀ (T : Type) (ident : T → String) (p : T) (s : EntityState T),
      (operationFulfilled ident (.update p) s).entityList
        = s.entityList.map (fun e => if ident e == ident p then p else e)
    ∧ (operationFulfilled ident (.update p) s).entityList.length
        = s.entityList.length
    ∧ (∀ i : Nat, (operationFulfilled ident (.update p) s).entityList[i]?
        = (s.entityList[i]?).map
            (fun e => if ident e == ident p then p else e))
    ∧ ((∀ e ∈ s.entityList, ident e ≠ ident p) →
        (operationFulfilled ident (.update p) s).entityList
          = s.entityList) := by
  intro T ident p s
  refine ⟨rfl, by simp [operationFulfilled], ?_, ?_⟩
  · intro i
    simp [operationFulfilled]
  · intro h
    exact map_update_no_match ident p s.entityList h

/-- C3 witness: updating with a payload `"z"` matching nothing in
`["a", "b"]` leaves the list unchanged. -/
theorem update_fulfilled_replaces_in_place_witness :
    (operationFulfilled (fun x => x) (.update "z")
        (⟨false, "", ["a", "b"], none⟩ : EntityState String)).entityList
      = ["a", "b"] :=
  (update_fulfilled_replaces_in_place String (fun x => x) "z"
      ⟨false, "", ["a", "b"], none⟩).2.2.2 (by decide)

/-- C2: when no element of `entityList` matches the delete payload's
identifier, the delete-fulfilled reducer computes the index `-1`, and the
single-argument splice removes the trailing slice starting there — the
last element of a non-empty list — instead of leaving the list
unchanged. -/
theorem delete_fulfilled_no_match_removes_last :
    ∀ (T : Type) (ident : T → String) (p : T) (s : EntityState T),
      (∀ e ∈ s.entityList, ident e ≠ ident p) →
      jsFindIndex (fun e => ident e == ident p) s.entityList = -1
    ∧ (operationFulfilled ident (.delete p) s).entityList
        = s.entityList.dropLast
    ∧ (s.entityList ≠ [] →
        (operationFulfilled ident (.delete p) s).entityList
          ≠ s.entityList) := by
  intro T ident p s h
  have hnone : s.entityList.findIdx? (fun e => ident e == ident p)
      = none := by
    rw [List.findIdx?_eq_none_iff]
    intro x hx
    simpa using h x hx
  have hidx : jsFindIndex (fun e => ident e == ident p) s.entityList
      = -1 := by
    simp [jsFindIndex, hnone]
  refine ⟨hidx, ?_, ?_⟩
  · show jsSpliceFrom s.entityList
        (jsFindIndex (fun e => ident e == ident p) s.entityList)
      = s.entityList.dropLast
    rw [hidx, jsSpliceFrom, if_pos (by omega), List.dropLast_eq_take]
    congr 1
    omega
  · intro hne
    show jsSpliceFrom s.entityList
        (jsFindIndex (fun e => ident e == ident p) s.entityList)
      ≠ s.entityList
    rw [hidx, jsSpliceFrom, if_pos (by omega)]
    intro heq
    have hlen := congrArg List.length heq
    rw [List.length_take] at hlen
    have hpos : 0 < s.entityList.length := List.length_pos.mpr hne
    omega

/-- C2 witness: deleting `"z"` from `["a", "b"]`, where nothing matches,
removes the last element instead of leaving the list unchanged. -/
theorem delete_fulfilled_no_match_removes_last_witness :
    (operationFulfilled (fun x => x) (.delete "z")
        (⟨false, "", ["a", "b"], none⟩ : EntityState String)).entityList
      = ["a"]
  ∧ (operationFulfilled (fun x => x) (.delete "z")
        (⟨false, "", ["a", "b"], none⟩ : EntityState String)).entityList
      ≠ ["a", "b"] := by
  have h := delete_fulfilled_no_match_removes_last String (fun x => x) "z"
    ⟨false, "", ["a", "b"], none⟩ (by decide)
  exact ⟨by rw [h.2.1]; rfl, by rw [h.2.1]; decide⟩

/-- C10: when the first element matching the delete payload's identifier
sits at index `i`, the delete-fulfilled reducer removes every element at
index `i` and beyond: the resulting list is the length-`i` initial
segment of the original list. -/
theorem delete_fulfilled_truncates_at_first_match :
    ∀ (T : Type) (ident : T → String) (p : T) (s : EntityState T)
      (i : Nat),
      s.entityList.findIdx? (fun e => ident e == ident p) = some i →
      (operationFulfilled ident (.delete p) s).entityList
        = s.entityList.take i := by
  intro T ident p s i h
  show jsSpliceFrom s.entityList
      (jsFindIndex (fun e => ident e == ident p) s.entityList)
    = s.entityList.take i
  have hidx : jsFindIndex (fun e => ident e == ident p) s.entityList
      = (i : Int) := by
    simp [jsFindIndex, h]
  rw [hidx, jsSpliceFrom, if_neg (by omega)]
  simp

/-- C10 witness: deleting `"b"` from `["a", "b", "c"]` (first match at
index 1) truncates the list to `["a"]`, dropping `"c"` as well. -/
theorem delete_fulfilled_truncates_at_first_match_witness :
    (operationFulfilled (fun x => x) (.delete "b")
        (⟨false, "", ["a", "b", "c"], none⟩ : EntityState String)).entityList
      = ["a"] := by
  have h := delete_fulfilled_truncates_at_first_match String (fun x => x)
    "b" ⟨false, "", ["a", "b", "c"], none⟩ 1 (by decide)
  rw [h]; rfl

/-- C1 at a concrete input: the list `["1", "2"]` (identity as the
identifier) contains `"1"`; deleting `"1"` yields `[]`, a list of length
0, not length 1 — the single-argument splice removed the matching element
and everything after it, so the length does not decrease by exactly
one. -/
theorem delete_fulfilled_match_removes_more_than_one :
    "1" ∈ (["1", "2"] : List String)
  ∧ (operationFulfilled (fun x => x) (.delete "1")
        (⟨false, "", ["1", "2"], none⟩ : EntityState String)).entityList
      = []
  ∧ (operationFulfilled (fun x => x) (.delete "1")
        (⟨false, "", ["1", "2"], none⟩ : EntityState String)).entityList.length
      ≠ (["1", "2"] : List String).length - 1 := by
  decide

/-- C8: the thunk body resolves to fulfilled exactly when the service
function's promise resolves, carrying the resolved value; a rejection is
caught and settles rejected via `rejectWithValue` carrying the failure
value as-is; no invocation ever re-throws. -/
theorem createCrudThunk_catches_rejection :
    ∀ (P E T : Type) (serviceFunction : P → Except E T) (p : P),
      (∀ v : T, serviceFunction p = .ok v →
        createCrudThunk serviceFunction p = .fulfilled v)
    ∧ (∀ e : E, serviceFunction p = .error e →
        createCrudThunk serviceFunction p = .rejectedWithValue e)
    ∧ (∀ e : E, createCrudThunk serviceFunction p ≠ .thrown e) := by
  intro P E T serviceFunction p
  refine ⟨?_, ?_, ?_⟩
  · intro v hv
    simp [createCrudThunk, hv]
  · intro e he
    simp [createCrudThunk, he]
  · intro e
    unfold createCrudThunk
    cases serviceFunction p <;> simp

/-- C8 witness: a service resolving to `3` settles fulfilled with `3`; a
service rejecting with `"boom"` settles rejected with `"boom"`. -/
theorem createCrudThunk_catches_rejection_witness :
    createCrudThunk (fun _ : Unit => (Except.ok 3 : Except String Nat)) ()
      = .fulfilled 3
  ∧ createCrudThunk
      (fun _ : Unit => (Except.error "boom" : Except String Nat)) ()
      = .rejectedWithValue "boom" :=
  ⟨(createCrudThunk_catches_rejection Unit String Nat
      (fun _ => Except.ok 3) ()).1 3 rfl,
   (createCrudThunk_catches_rejection Unit String Nat
      (fun _ => Except.error "boom") ()).2.1 "boom" rfl⟩

/-- C9: the fulfilled merge policies for update, list and get are
idempotent — applying the policy twice with the same payload equals
applying it once — while the create policy and the delete policy are not
(witnessed by concrete states). -/
theorem fulfilled_policies_idempotence :
    (∀ (T : Type) (ident : T → String) (p : T) (s : EntityState T),
      operationFulfilled ident (.update p)
          (operationFulfilled ident (.update p) s)
        = operationFulfilled ident (.update p) s)
  ∧ (∀ (T : Type) (ident : T → String) (es : List T) (s : EntityState T),
      operationFulfilled ident (.list es)
          (operationFulfilled ident (.list es) s)
        = operationFulfilled ident (.list es) s)
  ∧ (∀ (T : Type) (ident : T → String) (p : T) (s : EntityState T),
      operationFulfilled ident (.get p)
          (operationFulfilled ident (.get p) s)
        = operationFulfilled ident (.get p) s)
  ∧ (∃ (s : EntityState String) (p : String),
      operationFulfilled (fun x => x) (.create p)
          (operationFulfilled (fun x => x) (.create p) s)
        ≠ operationFulfilled (fun x => x) (.create p) s)
  ∧ (∃ (s : EntityState String) (p : String),
      operationFulfilled (fun x => x) (.delete p)
          (operationFulfilled (fun x => x) (.delete p) s)
        ≠ operationFulfilled (fun x => x) (.delete p) s) := by
  refine ⟨?_, ?_, ?_, ?_, ?_⟩
  · intro T ident p s
    have hcomp :
        ((fun x => if ident x == ident p then p else x) ∘
          (fun x => if ident x == ident p then p else x))
        = (fun x => if ident x == ident p then p else x) :=
      funext fun e => update_fn_idem ident p e
    simp only [operationFulfilled, List.map_map, hcomp]
  · intro T ident es s
    rfl
  · intro T ident p s
    rfl
  · exact ⟨⟨false, "", [], none⟩, "x", by decide⟩
  · exact ⟨⟨false, "", ["b", "a"], none⟩, "a", by decide⟩

end ReduxCrudThunk
